import Mathlib

/-
Verification of the stave pack transcoder
(src/simple-backend/stave_backend/lib/utils.py).

The development shallowly embeds the JSON-level data model and the four
core operations of the module: transform_pack, add_entry_to_doc,
edit_entry_in_doc, delete_entry_from_doc, together with the
OntoDefinitions helper class.

Modelling conventions:
- JSON values are the inductive `Json` below; numbers are integers
  (no float appears in any property under study).
- `Json.obj` models a Python dict produced by json.loads, so its keys
  are strings and are assumed unique; lookups take the first binding.
- Python exceptions (KeyError, TypeError, IndexError, AttributeError,
  ValueError, packaging.version.InvalidVersion) are modelled with the
  `Except PyErr` monad.  The unbounded recursion of
  OntoDefinitions._is_parent_match is modelled with an explicit fuel
  argument; exhausting the fuel yields the distinguished error
  `PyErr.diverge`, so a result of `.error .diverge` at every fuel
  models nontermination of the source.
- CPython set iteration order is implementation defined; the model
  fixes it to first-occurrence order (see getAttributeNamesE).
-/

set_option maxRecDepth 10000

namespace Stave

/-- JSON-like values, as produced by json.loads. -/
inductive Json where
  | null
  | bool (b : Bool)
  | num (n : Int)
  | str (s : String)
  | arr (elems : List Json)
  | obj (fields : List (String × Json))

mutual

/-- Decidable structural equality for `Json` (the automatic deriving does not
handle the nested lists). -/
def decEqJson : (a b : Json) → Decidable (a = b)
  | .null, .null => isTrue rfl
  | .bool a, .bool b =>
    match decEq a b with
    | isTrue h => isTrue (h ▸ rfl)
    | isFalse h => isFalse (fun hh => h (Json.bool.inj hh))
  | .num a, .num b =>
    match decEq a b with
    | isTrue h => isTrue (h ▸ rfl)
    | isFalse h => isFalse (fun hh => h (Json.num.inj hh))
  | .str a, .str b =>
    match decEq a b with
    | isTrue h => isTrue (h ▸ rfl)
    | isFalse h => isFalse (fun hh => h (Json.str.inj hh))
  | .arr a, .arr b =>
    match decEqJsonList a b with
    | isTrue h => isTrue (h ▸ rfl)
    | isFalse h => isFalse (fun hh => h (Json.arr.inj hh))
  | .obj a, .obj b =>
    match decEqJsonFields a b with
    | isTrue h => isTrue (h ▸ rfl)
    | isFalse h => isFalse (fun hh => h (Json.obj.inj hh))
  | .null, .bool _ | .null, .num _ | .null, .str _ | .null, .arr _
  | .null, .obj _ | .bool _, .null | .bool _, .num _ | .bool _, .str _
  | .bool _, .arr _ | .bool _, .obj _ | .num _, .null | .num _, .bool _
  | .num _, .str _ | .num _, .arr _ | .num _, .obj _ | .str _, .null
  | .str _, .bool _ | .str _, .num _ | .str _, .arr _ | .str _, .obj _
  | .arr _, .null | .arr _, .bool _ | .arr _, .num _ | .arr _, .str _
  | .arr _, .obj _ | .obj _, .null | .obj _, .bool _ | .obj _, .num _
  | .obj _, .str _ | .obj _, .arr _ => isFalse (by intro h; cases h)

def decEqJsonList : (a b : List Json) → Decidable (a = b)
  | [], [] => isTrue rfl
  | [], _ :: _ => isFalse (by intro h; cases h)
  | _ :: _, [] => isFalse (by intro h; cases h)
  | x :: xs, y :: ys =>
    match decEqJson x y, decEqJsonList xs ys with
    | isTrue h1, isTrue h2 => isTrue (h1 ▸ h2 ▸ rfl)
    | isFalse h1, _ => isFalse (fun hh => h1 (List.cons.inj hh).1)
    | _, isFalse h2 => isFalse (fun hh => h2 (List.cons.inj hh).2)

def decEqJsonFields : (a b : List (String × Json)) → Decidable (a = b)
  | [], [] => isTrue rfl
  | [], _ :: _ => isFalse (by intro h; cases h)
  | _ :: _, [] => isFalse (by intro h; cases h)
  | (k, v) :: xs, (k2, v2) :: ys =>
    match decEq k k2, decEqJson v v2, decEqJsonFields xs ys with
    | isTrue h0, isTrue h1, isTrue h2 => isTrue (h0 ▸ h1 ▸ h2 ▸ rfl)
    | isFalse h0, _, _ =>
      isFalse (fun hh => h0 (congrArg Prod.fst (List.cons.inj hh).1))
    | _, isFalse h1, _ =>
      isFalse (fun hh => h1 (congrArg Prod.snd (List.cons.inj hh).1))
    | _, _, isFalse h2 => isFalse (fun hh => h2 (List.cons.inj hh).2)

end

instance : DecidableEq Json := decEqJson

/-- Python == restricted to scalar values.  Every comparison the module
performs has a scalar on at least one side (the root type names are
strings, and dict keys passed the hashability check), and a Python
container never equals a scalar, so this is faithful at every use site.
It is structurally recursive-free, hence kernel-reducible. -/
def jeqScalar : Json → Json → Bool
  | .null, .null => true
  | .bool a, .bool b => a == b
  | .num a, .num b => a == b
  | .str a, .str b => a == b
  | _, _ => false

/-- Python exceptions raised by the translated code, plus `diverge`,
which marks fuel exhaustion of the unbounded parent-chain recursion. -/
inductive PyErr where
  | keyError (key : String)
  | typeError (msg : String)
  | indexError
  | attributeError (msg : String)
  | valueError (msg : String)
  | invalidVersion (s : String)
  | diverge
  deriving DecidableEq, Repr

/-- Explicit sequencing for `Except PyErr`, used instead of do-notation so
that proofs can rewrite with plain equations. -/
def pthen {α β : Type} (x : Except PyErr α) (f : α → Except PyErr β) :
    Except PyErr β :=
  match x with
  | .error e => .error e
  | .ok a => f a

@[simp] theorem pthen_ok {α β : Type} (a : α) (f : α → Except PyErr β) :
    pthen (.ok a) f = f a := rfl

@[simp] theorem pthen_error {α β : Type} (e : PyErr) (f : α → Except PyErr β) :
    pthen (.error e) f = .error e := rfl

/-- Python truthiness of a JSON value. -/
def truthy : Json → Bool
  | .null => false
  | .bool b => b
  | .num n => n != 0
  | .str s => s ≠ ""
  | .arr xs => !xs.isEmpty
  | .obj fs => !fs.isEmpty

/-- First-match lookup in an association list with string keys
(models lookup in a Python dict parsed from JSON, whose keys are unique). -/
def lookupF : List (String × Json) → String → Option Json
  | [], _ => none
  | (k, v) :: rest, key => if k = key then some v else lookupF rest key

@[simp] theorem lookupF_nil (key : String) : lookupF [] key = none := rfl

theorem lookupF_cons (k : String) (v : Json) (rest : List (String × Json))
    (key : String) :
    lookupF ((k, v) :: rest) key = if k = key then some v else lookupF rest key :=
  rfl

/-- dict.get on a JSON object: `none` when the key is absent or the value
is not a dict at all is separated below (pyGet). -/
def jLook (j : Json) (key : String) : Option Json :=
  match j with
  | .obj fs => lookupF fs key
  | _ => none

/-- Python `d[key]` with a string key (raises on a non-dict or missing key). -/
def jGetE (j : Json) (key : String) : Except PyErr Json :=
  match j with
  | .obj fs =>
    match lookupF fs key with
    | some v => .ok v
    | none => .error (.keyError key)
  | _ => .error (.typeError "not subscriptable by str")

/-- Python `d.get(key)` (AttributeError when the receiver is not a dict). -/
def pyGet (j : Json) (key : String) : Except PyErr (Option Json) :=
  match j with
  | .obj fs => .ok (lookupF fs key)
  | _ => .error (.attributeError "get")

/-- Python `key in d` for a dict with string keys. -/
def jHasKey (j : Json) (key : String) : Except PyErr Bool :=
  match j with
  | .obj fs => .ok (lookupF fs key).isSome
  | _ => .error (.typeError "argument of in is not a container")

/-- Replace the value of the first binding of `key`, or append a new binding:
dict assignment `d[key] = v`, which keeps insertion order. -/
def upsertF : List (String × Json) → String → Json → List (String × Json)
  | [], key, v => [(key, v)]
  | (k, w) :: rest, key, v =>
    if k = key then (k, v) :: rest else (k, w) :: upsertF rest key v

/-- `j` with the binding of `key` replaced by `v` (only meaningful for objects;
used in the model after a successful lookup on the same object). -/
def jSet (j : Json) (key : String) (v : Json) : Json :=
  match j with
  | .obj fs => .obj (upsertF fs key v)
  | _ => j

/-- Escape a character for a JSON string literal (enough for the values the
properties exercise). -/
def escapeChar (c : Char) : String :=
  if c = '"' then "\\\"" else if c = '\\' then "\\\\" else String.singleton c

def escapeStr (s : String) : String :=
  String.join (s.toList.map escapeChar)

mutual

/-- json.dumps with the default separators. -/
def dumps : Json → String
  | .null => "null"
  | .bool true => "true"
  | .bool false => "false"
  | .num n => toString n
  | .str s => "\"" ++ escapeStr s ++ "\""
  | .arr xs => "[" ++ dumpsElems xs ++ "]"
  | .obj fs => "\x7b" ++ dumpsFields fs ++ "\x7d"

def dumpsElems : List Json → String
  | [] => ""
  | [x] => dumps x
  | x :: y :: rest => dumps x ++ ", " ++ dumpsElems (y :: rest)

def dumpsFields : List (String × Json) → String
  | [] => ""
  | [(k, v)] => "\"" ++ escapeStr k ++ "\": " ++ dumps v
  | (k, v) :: f :: rest =>
    "\"" ++ escapeStr k ++ "\": " ++ dumps v ++ ", " ++ dumpsFields (f :: rest)

end

mutual

/-- Python repr of a JSON value (containers only matter for error text). -/
def pyRepr : Json → String
  | .null => "None"
  | .bool true => "True"
  | .bool false => "False"
  | .num n => toString n
  | .str s => "\x27" ++ s ++ "\x27"
  | .arr xs => "[" ++ pyReprElems xs ++ "]"
  | .obj fs => "\x7b" ++ pyReprFields fs ++ "\x7d"

def pyReprElems : List Json → String
  | [] => ""
  | [x] => pyRepr x
  | x :: y :: rest => pyRepr x ++ ", " ++ pyReprElems (y :: rest)

def pyReprFields : List (String × Json) → String
  | [] => ""
  | [(k, v)] => "\x27" ++ k ++ "\x27: " ++ pyRepr v
  | (k, v) :: f :: rest =>
    "\x27" ++ k ++ "\x27: " ++ pyRepr v ++ ", " ++ pyReprFields (f :: rest)

end

/-- Python str() of a JSON value (str(x) in the source is only applied to
entry ids, which are numbers or strings in every property under study). -/
def pyStr : Json → String
  | .null => "None"
  | .bool true => "True"
  | .bool false => "False"
  | .num n => toString n
  | .str s => s
  | .arr xs => pyRepr (.arr xs)
  | .obj fs => pyRepr (.obj fs)

/-- Python `x[k]` for a dynamic key. -/
def pySubscript (container key : Json) : Except PyErr Json :=
  match container, key with
  | .obj fs, .str k =>
    match lookupF fs k with
    | some v => .ok v
    | none => .error (.keyError k)
  | .obj _, .arr _ => .error (.typeError "unhashable type")
  | .obj _, .obj _ => .error (.typeError "unhashable type")
  | .obj _, k => .error (.keyError (pyRepr k))
  | .arr xs, .num i =>
    let j : Int := if i < 0 then i + xs.length else i
    if h : 0 ≤ j ∧ j.toNat < xs.length then .ok (xs.get ⟨j.toNat, h.2⟩)
    else .error .indexError
  | .arr _, _ => .error (.typeError "list indices must be integers")
  | _, _ => .error (.typeError "object is not subscriptable")

/-- Python `xs[k] = v` on a list. -/
def pySetIdx (xs : List Json) (key : Json) (v : Json) : Except PyErr (List Json) :=
  match key with
  | .num i =>
    let j : Int := if i < 0 then i + xs.length else i
    if 0 ≤ j ∧ j.toNat < xs.length then .ok (xs.set j.toNat v)
    else .error .indexError
  | _ => .error (.typeError "list indices must be integers")

/-- Python `del xs[i]` on a list. -/
def pyDelIdx (xs : List Json) (i : Int) : Except PyErr (List Json) :=
  let j : Int := if i < 0 then i + xs.length else i
  if 0 ≤ j ∧ j.toNat < xs.length then .ok (xs.eraseIdx j.toNat)
  else .error .indexError

/-- Split a character list at every dot. -/
def splitDots : List Char → List (List Char)
  | [] => [[]]
  | c :: rest =>
    if c = '.' then [] :: splitDots rest
    else
      match splitDots rest with
      | [] => [[c]]
      | h :: t => (c :: h) :: t

def digitsValAux (acc : Nat) : List Char → Nat
  | [] => acc
  | c :: rest => digitsValAux (acc * 10 + (c.toNat - 48)) rest

def digitsVal (cs : List Char) : Nat := digitsValAux 0 cs

/-- Lexicographic string comparison (plain string ordering, for contrast
with the semantic version ordering). -/
def charListLt : List Char → List Char → Bool
  | [], [] => false
  | [], _ :: _ => true
  | _ :: _, [] => false
  | a :: as, b :: bs =>
    if a < b then true else if b < a then false else charListLt as bs

def strLt (a b : String) : Bool := charListLt a.toList b.toList

/-- packaging.version.Version: the module only ever feeds it plain dotted
release segments, modelled as lists of naturals.  Anything else raises. -/
def parseVersionE (v : Json) : Except PyErr (List Nat) :=
  match v with
  | .str s =>
    let parts := splitDots s.toList
    if parts.all (fun p => !p.isEmpty && p.all (fun c => c.isDigit)) then
      .ok (parts.map digitsVal)
    else .error (.invalidVersion s)
  | _ => .error (.typeError "expected str or bytes")

/-- Release-segment comparison of packaging.version.Version: componentwise,
with zero padding of the shorter list. -/
def versionLt : List Nat → List Nat → Bool
  | [], bs => bs.any (fun b => 0 < b)
  | a :: as, [] => if 0 < a then false else versionLt as []
  | a :: as, b :: bs =>
    if a < b then true else if b < a then false else versionLt as bs

/-- The version dispatch shared by the decoder and every mutator:
Version(pack_state.get("pack_version", "0.0.0")) < Version("0.0.2"). -/
def packStateIsLegacy (st : Json) : Except PyErr Bool :=
  pthen (pyGet st "pack_version") fun vOpt =>
  pthen (parseVersionE (vOpt.getD (.str "0.0.0"))) fun pv =>
  .ok (versionLt pv [0, 0, 2])

/-- Python hashability of a JSON value (dict keys must be hashable). -/
def hashable : Json → Bool
  | .arr _ => false
  | .obj _ => false
  | _ => true

/-- The mapping held by OntoDefinitions._entries: keys are the entry_name
values of the definitions (arbitrary hashable JSON values). -/
abbrev OntoMap := List (Json × Json)

def lookupJ : List (Json × Json) → Json → Option Json
  | [], _ => none
  | (k, v) :: rest, key => if jeqScalar k key then some v else lookupJ rest key

def upsertJ : List (Json × Json) → Json → Json → List (Json × Json)
  | [], key, v => [(key, v)]
  | (k, w) :: rest, key, v =>
    if jeqScalar k key then (k, v) :: rest else (k, w) :: upsertJ rest key v

/-- self._entries.get(key) (TypeError on an unhashable key). -/
def ontoGet (entries : OntoMap) (key : Json) : Except PyErr (Option Json) :=
  if hashable key then .ok (lookupJ entries key)
  else .error (.typeError "unhashable type")

def mkOntoAux : List Json → OntoMap → Except PyErr OntoMap
  | [], acc => .ok acc
  | d :: rest, acc =>
    pthen (jGetE d "entry_name") fun nm =>
    if hashable nm then mkOntoAux rest (upsertJ acc nm d)
    else .error (.typeError "unhashable type")

/-- OntoDefinitions.__init__: the dict comprehension over
json.loads(raw_ontology).get("definitions", []). -/
def mkOnto (raw : Json) : Except PyErr OntoMap :=
  pthen (pyGet raw "definitions") fun dOpt =>
  match dOpt.getD (.arr []) with
  | .arr defs => mkOntoAux defs []
  | _ => .error (.typeError "not iterable")

def ANNOT_ROOT : String := "forte.data.ontology.top.Annotation"
def LINK_ROOT : String := "forte.data.ontology.top.Link"
def GROUP_ROOT : String := "forte.data.ontology.top.Group"

/-- self._entries.get(entry_name, some default dict).get("parent_entry"),
with None standing for an absent parent. -/
def rawParentOf (onto : OntoMap) (entryName : Json) : Except PyErr Json :=
  pthen (ontoGet onto entryName) fun dOpt =>
  pthen (pyGet (dOpt.getD (.obj [])) "parent_entry") fun pOpt =>
  .ok (pOpt.getD .null)

/-- OntoDefinitions._is_parent_match.  The source recurses without any
guard; the fuel argument makes that explicit, with exhaustion reported
as the distinguished error `diverge`. -/
def isParentMatchF (onto : OntoMap) (matchName : Json) :
    Nat → Json → Except PyErr Bool
  | 0, _ => .error .diverge
  | fuel + 1, entryName =>
    if jeqScalar entryName matchName then .ok true
    else
      pthen (rawParentOf onto entryName) fun p =>
      if truthy p then isParentMatchF onto matchName fuel p else .ok false

/-- OntoDefinitions.get_entry_type. -/
def getEntryTypeF (onto : OntoMap) (fuel : Nat) (entryName : Json) :
    Except PyErr String :=
  pthen (isParentMatchF onto (.str ANNOT_ROOT) fuel entryName) fun b1 =>
  if b1 then .ok "annotation"
  else
    pthen (isParentMatchF onto (.str LINK_ROOT) fuel entryName) fun b2 =>
    if b2 then .ok "link"
    else
      pthen (isParentMatchF onto (.str GROUP_ROOT) fuel entryName) fun b3 =>
      if b3 then .ok "group" else .ok "unknown"

def memJ (x : Json) : List Json → Bool
  | [] => false
  | y :: rest => if jeqScalar y x then true else memJ x rest

/-- Collect the attribute names, deduplicated.  CPython enumerates a set in
an implementation-defined order; the model fixes first-occurrence order. -/
def collectNames : List Json → List Json → Except PyErr (List Json)
  | [], acc => .ok acc.reverse
  | a :: rest, acc =>
    pthen (jGetE a "name") fun nm =>
    if hashable nm then
      collectNames rest (if memJ nm acc then acc else nm :: acc)
    else .error (.typeError "unhashable type")

/-- OntoDefinitions.get_attribute_names. -/
def getAttributeNamesE (onto : OntoMap) (entryName : Json) :
    Except PyErr (List Json) :=
  pthen (ontoGet onto entryName) fun dOpt =>
  let d := dOpt.getD .null
  if !truthy d then .ok []
  else
    pthen (pyGet d "attributes") fun aOpt =>
    let attrs := aOpt.getD .null
    if !truthy attrs then .ok []
    else
      match attrs with
      | .arr items => collectNames items []
      | _ => .error (.typeError "not iterable")

/-- OntoDefinitions.get_attributes. -/
def getAttributesE (onto : OntoMap) (entry : Json) :
    Except PyErr (List (String × Json)) :=
  pthen (jGetE entry "py/object") fun tyName =>
  pthen (getAttributeNamesE onto tyName) fun names =>
  pthen (jGetE entry "py/state") fun st =>
  match st with
  | .obj kvs => .ok (kvs.filter (fun kv => memJ (.str kv.1) names))
  | _ => .error (.attributeError "items")

/-- OntoDefinitions.get_group_type. -/
def getGroupTypeF (onto : OntoMap) (fuel : Nat) (entryName : Json) :
    Except PyErr String :=
  pthen (ontoGet onto entryName) fun dOpt =>
  pthen (pyGet (dOpt.getD (.obj [])) "member_type") fun mOpt =>
  pthen (getEntryTypeF onto fuel (mOpt.getD .null)) fun ty =>
  if ty = "annotation" then .ok "annotation"
  else if ty = "link" then .ok "link"
  else .error (.valueError ("Unknown group entry: " ++ pyStr entryName))

/-! transform_pack -/

/-- The annotations loop of the legacy branch of transform_pack. -/
def legacyAnnsF (onto : OntoMap) : List Json → Except PyErr (List Json)
  | [] => .ok []
  | a :: rest =>
    pthen (pyGet a "py/state") fun edOpt =>
    let ed := edOpt.getD .null
    if !truthy ed then legacyAnnsF onto rest
    else
      pthen (jGetE ed "_span") fun sp1 =>
      pthen (jGetE sp1 "begin") fun b =>
      pthen (jGetE ed "_span") fun sp2 =>
      pthen (jGetE sp2 "end") fun e =>
      pthen (jGetE ed "_tid") fun tid =>
      pthen (pyGet a "py/object") fun legOpt =>
      pthen (getAttributesE onto a) fun attrs =>
      pthen (legacyAnnsF onto rest) fun tail =>
      .ok (Json.obj
             [("span", .obj [("begin", b), ("end", e)]),
              ("id", .str (pyStr tid)),
              ("legendId", legOpt.getD .null),
              ("attributes", .obj attrs)] :: tail)

/-- The links loop of the legacy branch of transform_pack. -/
def legacyLinksF (onto : OntoMap) : List Json → Except PyErr (List Json)
  | [] => .ok []
  | a :: rest =>
    pthen (pyGet a "py/state") fun edOpt =>
    let ed := edOpt.getD .null
    if !truthy ed then legacyLinksF onto rest
    else
      pthen (jGetE ed "_tid") fun tid =>
      pthen (jGetE ed "_parent") fun pa =>
      pthen (jGetE ed "_child") fun ch =>
      pthen (pyGet a "py/object") fun legOpt =>
      pthen (getAttributesE onto a) fun attrs =>
      pthen (legacyLinksF onto rest) fun tail =>
      .ok (Json.obj
             [("id", .str (pyStr tid)),
              ("fromEntryId", .str (pyStr pa)),
              ("toEntryId", .str (pyStr ch)),
              ("legendId", legOpt.getD .null),
              ("attributes", .obj attrs)] :: tail)

/-- The groups loop of the legacy branch of transform_pack. -/
def legacyGroupsF (onto : OntoMap) (fuel : Nat) :
    List Json → Except PyErr (List Json)
  | [] => .ok []
  | a :: rest =>
    pthen (pyGet a "py/state") fun edOpt =>
    let ed := edOpt.getD .null
    if !truthy ed then legacyGroupsF onto fuel rest
    else
      pthen (jGetE ed "_tid") fun tid =>
      pthen (jGetE ed "_members") fun mem =>
      pthen (jGetE mem "py/set") fun setJ =>
      match setJ with
      | .arr tids =>
        pthen (pyGet a "py/object") fun legOpt =>
        pthen (getGroupTypeF onto fuel (legOpt.getD .null)) fun mty =>
        pthen (getAttributesE onto a) fun attrs =>
        pthen (legacyGroupsF onto fuel rest) fun tail =>
        .ok (Json.obj
               [("id", .str (pyStr tid)),
                ("members", .arr (tids.map (fun t => .str (pyStr t)))),
                ("memberType", .str mty),
                ("legendId", legOpt.getD .null),
                ("attributes", .obj attrs)] :: tail)
      | _ => .error (.typeError "not iterable")

/-- The attribute comprehension of the compact branch:
attr_name maps to entry_data[attr_ind] over fields[entry_type]["attributes"]. -/
def decodeAttrsList : List (String × Json) → Json → Except PyErr (List (String × Json))
  | [], _ => .ok []
  | (k, iv) :: rest, ed =>
    pthen (pySubscript ed iv) fun v =>
    pthen (decodeAttrsList rest ed) fun tail =>
    .ok ((k, v) :: tail)

def compactAttrs (fieldsJ : Json) (entryType : String) (ed : Json) :
    Except PyErr (List (String × Json)) :=
  pthen (jGetE fieldsJ entryType) fun fEntry =>
  pthen (jGetE fEntry "attributes") fun amJ =>
  match amJ with
  | .obj amf => decodeAttrsList amf ed
  | _ => .error (.attributeError "items")

/-- The inner loop of the compact branch over one entry-type bucket.
The three accumulators are the annotations, links and groups lists. -/
def compactEntryListF (onto : OntoMap) (fuel : Nat) (fieldsJ : Json)
    (entryType : String) (parentType : String) :
    List Json → List Json × List Json × List Json →
    Except PyErr (List Json × List Json × List Json)
  | [], acc => .ok acc
  | ed :: rest, acc =>
    pthen (compactAttrs fieldsJ entryType ed) fun attrs =>
    if parentType = "annotation" then
      pthen (pySubscript ed (.num 0)) fun b =>
      pthen (pySubscript ed (.num 1)) fun e =>
      pthen (pySubscript ed (.num 2)) fun tid =>
      pthen (pySubscript ed (.num 3)) fun leg =>
      compactEntryListF onto fuel fieldsJ entryType parentType rest
        (acc.1 ++ [Json.obj
           [("span", .obj [("begin", b), ("end", e)]),
            ("id", .str (pyStr tid)),
            ("legendId", leg),
            ("attributes", .obj attrs)]], acc.2.1, acc.2.2)
    else if parentType = "link" then
      pthen (pySubscript ed (.num 2)) fun tid =>
      pthen (pySubscript ed (.num 0)) fun pa =>
      pthen (pySubscript ed (.num 1)) fun ch =>
      pthen (pySubscript ed (.num 3)) fun leg =>
      compactEntryListF onto fuel fieldsJ entryType parentType rest
        (acc.1, acc.2.1 ++ [Json.obj
           [("id", .str (pyStr tid)),
            ("fromEntryId", .str (pyStr pa)),
            ("toEntryId", .str (pyStr ch)),
            ("legendId", leg),
            ("attributes", .obj attrs)]], acc.2.2)
    else
      pthen (pySubscript ed (.num 2)) fun tid =>
      pthen (pySubscript ed (.num 1)) fun memJn =>
      match memJn with
      | .arr tids =>
        pthen (pySubscript ed (.num 3)) fun leg =>
        pthen (getGroupTypeF onto fuel leg) fun mty =>
        compactEntryListF onto fuel fieldsJ entryType parentType rest
          (acc.1, acc.2.1, acc.2.2 ++ [Json.obj
             [("id", .str (pyStr tid)),
              ("members", .arr (tids.map (fun t => .str (pyStr t)))),
              ("memberType", .str mty),
              ("legendId", leg),
              ("attributes", .obj attrs)]])
      | _ => .error (.typeError "not iterable")

/-- The outer loop of the compact branch over the entries dict. -/
def compactEntriesF (onto : OntoMap) (fuel : Nat) (fieldsJ : Json) :
    List (String × Json) → List Json × List Json × List Json →
    Except PyErr (List Json × List Json × List Json)
  | [], acc => .ok acc
  | (ty, lst) :: rest, acc =>
    pthen (getEntryTypeF onto fuel (.str ty)) fun pt =>
    if pt ≠ "annotation" ∧ pt ≠ "link" ∧ pt ≠ "group" then
      compactEntriesF onto fuel fieldsJ rest acc
    else
      match lst with
      | .arr eds =>
        pthen (compactEntryListF onto fuel fieldsJ ty pt eds acc) fun acc2 =>
        compactEntriesF onto fuel fieldsJ rest acc2
      | _ => .error (.typeError "not iterable")

/-- The trailing lookups of transform_pack: the "_text" value and the
meta / _meta global attributes. -/
def packTail (pj : Json) (acc : List Json × List Json × List Json) :
    Except PyErr Json :=
  pthen (jGetE pj "_text") fun txt =>
  pthen (jHasKey pj "meta") fun hasMeta =>
  pthen
    (if hasMeta then
       pthen (jGetE pj "meta") fun m => jGetE m "py/state"
     else
       pthen (jGetE pj "_meta") fun m => jGetE m "py/state")
    fun ga =>
  .ok (Json.obj
         [("text", txt),
          ("annotations", .arr acc.1),
          ("links", .arr acc.2.1),
          ("groups", .arr acc.2.2),
          ("attributes", ga)])

/-- transform_pack, at the level of parsed JSON trees. -/
def transformPackF (fuel : Nat) (rawPack : Json) (rawOnto : Json) :
    Except PyErr Json :=
  pthen (jGetE rawPack "py/state") fun pj =>
  pthen (mkOnto rawOnto) fun onto =>
  pthen (packStateIsLegacy pj) fun isLeg =>
  if isLeg then
    pthen (jGetE pj "annotations") fun annsJ =>
    match annsJ with
    | .arr anns =>
      pthen (legacyAnnsF onto anns) fun aOut =>
      pthen (jGetE pj "links") fun linksJ =>
      match linksJ with
      | .arr links =>
        pthen (legacyLinksF onto links) fun lOut =>
        pthen (jGetE pj "groups") fun groupsJ =>
        match groupsJ with
        | .arr groups =>
          pthen (legacyGroupsF onto fuel groups) fun gOut =>
          packTail pj (aOut, lOut, gOut)
        | _ => .error (.typeError "not iterable")
      | _ => .error (.typeError "not iterable")
    | _ => .error (.typeError "not iterable")
  else
    pthen (jGetE pj "_data_store") fun ds =>
    pthen (jGetE ds "py/state") fun dsSt =>
    pthen (jGetE dsSt "fields") fun fieldsJ =>
    pthen (jGetE dsSt "entries") fun entriesJ =>
    match entriesJ with
    | .obj ebs =>
      pthen (compactEntriesF onto fuel fieldsJ ebs ([], [], [])) fun acc =>
      packTail pj acc
    | _ => .error (.attributeError "items")

/-! add_entry_to_doc -/

/-- The slot-index dict comprehension of add_entry_to_doc:
attr_name maps to 4 + i over the enumerated attribute names. -/
def mkSlotObj (base : Nat) : List Json → Except PyErr (List (String × Json))
  | [] => .ok []
  | .str s :: rest =>
    pthen (mkSlotObj (base + 1) rest) fun m => .ok ((s, .num base) :: m)
  | _ :: _ => .error (.typeError "keys must be str")

/-- The attribute-filling loop of add_entry_to_doc: for each state item
whose key has a slot, write the value into that slot of the new entry. -/
def fillSlots (amap : List (String × Json)) :
    List (String × Json) → List Json → Except PyErr (List Json)
  | [], acc => .ok acc
  | (k, v) :: rest, acc =>
    match lookupF amap k with
    | none => fillSlots amap rest acc
    | some idx => pthen (pySetIdx acc idx v) fun acc2 => fillSlots amap rest acc2

/-- add_entry_to_doc, returning the mutated pack tree (the final
json.dumps and doc.save are the composition below). -/
def addEntryToDocTreeF (fuel : Nat) (pack : Json) (rawOnto : Json)
    (entry : Json) : Except PyErr Json :=
  pthen (mkOnto rawOnto) fun onto =>
  pthen (jGetE entry "py/object") fun entryType =>
  pthen (getEntryTypeF onto fuel entryType) fun parentType =>
  pthen (jGetE pack "py/state") fun st =>
  pthen (packStateIsLegacy st) fun isLeg =>
  if isLeg then
    let listName :=
      if parentType = "annotation" then "annotations"
      else if parentType = "link" then "links" else ""
    if listName = "" then .ok pack
    else
      pthen (jGetE st listName) fun lstJ =>
      match lstJ with
      | .arr items =>
        .ok (jSet pack "py/state" (jSet st listName (.arr (items ++ [entry]))))
      | _ => .error (.attributeError "append")
  else
    pthen (jGetE st "_data_store") fun ds =>
    pthen (jGetE ds "py/state") fun dsSt =>
    pthen (jGetE dsSt "fields") fun fieldsJ =>
    match entryType, fieldsJ with
    | .str tyS, .obj fFields =>
      pthen
        (match lookupF fFields tyS with
         | some _ => .ok fieldsJ
         | none =>
           pthen (getAttributeNamesE onto entryType) fun names =>
           pthen (mkSlotObj 4 names) fun slots =>
           .ok (Json.obj (upsertF fFields tyS (.obj [("attributes", .obj slots)]))))
        fun fieldsJ2 =>
      pthen (jGetE fieldsJ2 tyS) fun fEntry =>
      pthen (jGetE fEntry "attributes") fun amJ =>
      match amJ with
      | .obj amap =>
        pthen
          (if parentType = "annotation" then
             pthen (jGetE entry "py/state") fun est =>
             pthen (jGetE est "_span") fun sp1 =>
             pthen (jGetE sp1 "begin") fun b =>
             pthen (jGetE est "_span") fun sp2 =>
             pthen (jGetE sp2 "end") fun e =>
             pthen (jGetE est "_tid") fun tid =>
             .ok [b, e, tid, entryType]
           else if parentType = "link" then
             pthen (jGetE entry "py/state") fun est =>
             pthen (jGetE est "_parent") fun pa =>
             pthen (jGetE est "_child") fun ch =>
             pthen (jGetE est "_tid") fun tid =>
             .ok [pa, ch, tid, entryType]
           else .ok [])
        fun headCols =>
        let padded := headCols ++ List.replicate amap.length Json.null
        pthen (jGetE entry "py/state") fun est =>
        match est with
        | .obj stItems =>
          pthen (fillSlots amap stItems padded) fun filled =>
          pthen (jGetE dsSt "entries") fun entriesJ =>
          match entriesJ with
          | .obj eFields =>
            match (lookupF eFields tyS).getD (.arr []) with
            | .arr items =>
              let eFields2 := upsertF eFields tyS (.arr (items ++ [.arr filled]))
              .ok (jSet pack "py/state" (jSet st "_data_store" (jSet ds "py/state"
                    (jSet (jSet dsSt "fields" fieldsJ2) "entries" (.obj eFields2)))))
            | _ => .error (.attributeError "append")
          | _ => .error (.typeError "argument of in is not a container")
        | _ => .error (.attributeError "items")
      | _ => .error (.attributeError "items")
    | _, _ => .error (.typeError "keys must be str")

/-- add_entry_to_doc: mutate the tree, then re-serialize the whole
document into doc.textPack (the value doc.save persists). -/
def addEntryToDocF (fuel : Nat) (pack : Json) (rawOnto : Json)
    (entry : Json) : Except PyErr String :=
  (addEntryToDocTreeF fuel pack rawOnto entry).map dumps

/-! edit_entry_in_doc -/

/-- The scan of edit_entry_in_doc: every item whose str(_tid) equals the
incoming str(_tid) is replaced (the loop has no break). -/
def editScanF (entry : Json) : List Json → Except PyErr (List Json)
  | [] => .ok []
  | item :: rest =>
    pthen (jGetE item "py/state") fun ist =>
    pthen (jGetE ist "_tid") fun itid =>
    pthen (jGetE entry "py/state") fun est =>
    pthen (jGetE est "_tid") fun etid =>
    pthen (editScanF entry rest) fun tail =>
    .ok ((if pyStr itid = pyStr etid then entry else item) :: tail)

/-- edit_entry_in_doc, returning the mutated pack tree. -/
def editEntryInDocTreeF (fuel : Nat) (pack : Json) (rawOnto : Json)
    (entry : Json) : Except PyErr Json :=
  pthen (mkOnto rawOnto) fun onto =>
  pthen (jGetE entry "py/object") fun entryType =>
  pthen (getEntryTypeF onto fuel entryType) fun parentType =>
  pthen (jGetE pack "py/state") fun st =>
  pthen (packStateIsLegacy st) fun isLeg =>
  if isLeg then
    let listName :=
      if parentType = "annotation" then "annotations"
      else if parentType = "link" then "links" else ""
    if listName = "" then .ok pack
    else
      pthen (jGetE st listName) fun lstJ =>
      match lstJ with
      | .arr items =>
        pthen (editScanF entry items) fun items2 =>
        .ok (jSet pack "py/state" (jSet st listName (.arr items2)))
      | _ => .error (.typeError "not iterable")
  else
    pthen (jGetE st "_data_store") fun ds =>
    pthen (jGetE ds "py/state") fun dsSt =>
    pthen (jGetE dsSt "entries") fun entriesJ =>
    pthen (pySubscript entriesJ entryType) fun bucketJ =>
    match entryType, bucketJ with
    | .str tyS, .arr items =>
      pthen (editScanF entry items) fun items2 =>
      .ok (jSet pack "py/state" (jSet st "_data_store" (jSet ds "py/state"
            (jSet dsSt "entries" (jSet entriesJ tyS (.arr items2))))))
    | _, _ => .error (.typeError "not iterable")

def editEntryInDocF (fuel : Nat) (pack : Json) (rawOnto : Json)
    (entry : Json) : Except PyErr String :=
  (editEntryInDocTreeF fuel pack rawOnto entry).map dumps

/-! delete_entry_from_doc -/

/-- The legacy scan of delete_entry_from_doc: remember the index of the
last item whose str(_tid) equals the requested id. -/
def deleteScanLegacy (entryTid : String) :
    List Json → Int → Nat → Except PyErr Int
  | [], acc, _ => .ok acc
  | item :: rest, acc, idx =>
    pthen (jGetE item "py/state") fun ist =>
    pthen (jGetE ist "_tid") fun itid =>
    deleteScanLegacy entryTid rest
      (if pyStr itid = entryTid then (idx : Int) else acc) (idx + 1)

/-- The compact inner scan: remember the index of the last positional
array whose str(item[2]) equals the requested id.  The accumulator is
the delete_index of the source, which is not reset between buckets. -/
def deleteScanCompact (entryTid : String) :
    List Json → Int → Nat → Except PyErr Int
  | [], acc, _ => .ok acc
  | item :: rest, acc, idx =>
    pthen (pySubscript item (.num 2)) fun itid =>
    deleteScanCompact entryTid rest
      (if pyStr itid = entryTid then (idx : Int) else acc) (idx + 1)

/-- The compact outer loop of delete_entry_from_doc over the entries
dict, threading delete_index across buckets exactly as the source does. -/
def deleteBucketsF (onto : OntoMap) (fuel : Nat) (entryTid : String)
    (parentType : String) :
    List (String × Json) → Int → Except PyErr (List (String × Json) × Int)
  | [], acc => .ok ([], acc)
  | (ty, lst) :: rest, acc =>
    pthen (getEntryTypeF onto fuel (.str ty)) fun pt =>
    if pt ≠ parentType then
      pthen (deleteBucketsF onto fuel entryTid parentType rest acc) fun res =>
      .ok ((ty, lst) :: res.1, res.2)
    else
      match lst with
      | .arr items =>
        pthen (deleteScanCompact entryTid items acc 0) fun acc2 =>
        pthen
          (if acc2 ≥ 0 then (pyDelIdx items acc2).map Json.arr else .ok lst)
          fun lst2 =>
        pthen (deleteBucketsF onto fuel entryTid parentType rest acc2) fun res =>
        .ok ((ty, lst2) :: res.1, res.2)
      | _ => .error (.typeError "not iterable")

/-- delete_entry_from_doc, returning the mutated pack tree. -/
def deleteEntryFromDocTreeF (fuel : Nat) (pack : Json) (rawOnto : Json)
    (entryTid : String) (parentType : String) : Except PyErr Json :=
  pthen (mkOnto rawOnto) fun onto =>
  pthen (jGetE pack "py/state") fun st =>
  pthen (packStateIsLegacy st) fun isLeg =>
  if isLeg then
    let listName :=
      if parentType = "annotation" then "annotations"
      else if parentType = "link" then "links" else ""
    if listName = "" then .ok pack
    else
      pthen (jGetE st listName) fun lstJ =>
      match lstJ with
      | .arr items =>
        pthen (deleteScanLegacy entryTid items (-1) 0) fun di =>
        pthen
          (if di ≥ 0 then (pyDelIdx items di).map Json.arr else .ok lstJ)
          fun lst2 =>
        .ok (jSet pack "py/state" (jSet st listName lst2))
      | _ => .error (.typeError "not iterable")
  else
    pthen (jGetE st "_data_store") fun ds =>
    pthen (jGetE ds "py/state") fun dsSt =>
    pthen (jGetE dsSt "entries") fun entriesJ =>
    match entriesJ with
    | .obj eFields =>
      pthen (deleteBucketsF onto fuel entryTid parentType eFields (-1)) fun res =>
      .ok (jSet pack "py/state" (jSet st "_data_store" (jSet ds "py/state"
            (jSet dsSt "entries" (.obj res.1)))))
    | _ => .error (.attributeError "items")

def deleteEntryFromDocF (fuel : Nat) (pack : Json) (rawOnto : Json)
    (entryTid : String) (parentType : String) : Except PyErr String :=
  (deleteEntryFromDocTreeF fuel pack rawOnto entryTid parentType).map dumps

instance exceptDecEq {ε α : Type} [DecidableEq ε] [DecidableEq α] :
    DecidableEq (Except ε α)
  | .ok a, .ok b =>
    match decEq a b with
    | isTrue h => isTrue (h ▸ rfl)
    | isFalse h => isFalse fun hh => h (Except.ok.inj hh)
  | .error a, .error b =>
    match decEq a b with
    | isTrue h => isTrue (h ▸ rfl)
    | isFalse h => isFalse fun hh => h (Except.error.inj hh)
  | .ok _, .error _ => isFalse (by intro h; cases h)
  | .error _, .ok _ => isFalse (by intro h; cases h)

/-! Concrete fixtures used by the claims. -/

/-- The py/state record of a compact (pack_version 0.0.2) document with the
given fields and entries sub-dicts. -/
def mkCompactState (fields entries : List (String × Json)) : Json :=
  .obj [
    ("_text", .str ""), ("pack_version", .str "0.0.2"),
    ("_meta", .obj [("py/state", .obj [])]),
    ("_data_store", .obj [("py/state", .obj [
      ("fields", .obj fields), ("entries", .obj entries)])])]

/-- A compact (pack_version 0.0.2) document tree with the given fields and
entries sub-dicts. -/
def mkCompactPack (fields entries : List (String × Json)) : Json :=
  .obj [("py/state", mkCompactState fields entries)]

/-- An ontology with two annotation types T1 and T2. -/
def ontoT12 : Json := .obj [("definitions", .arr [
  .obj [("entry_name", .str "T1"), ("parent_entry", .str ANNOT_ROOT)],
  .obj [("entry_name", .str "T2"), ("parent_entry", .str ANNOT_ROOT)]])]

/-- A compact pack holding the duplicated id "7" in both annotation buckets
(last occurrence: the first entry of the T2 bucket). -/
def packC1 : Json := mkCompactPack
  [("T1", .obj [("attributes", .obj [])]), ("T2", .obj [("attributes", .obj [])])]
  [("T1", .arr [.arr [.num 0, .num 1, .str "7", .str "T1"]]),
   ("T2", .arr [.arr [.num 2, .num 3, .str "7", .str "T2"],
                .arr [.num 4, .num 5, .str "8", .str "T2"]])]

/-- What delete_entry_from_doc actually leaves of packC1: both entries with
id "7" are gone. -/
def packC1After : Json := mkCompactPack
  [("T1", .obj [("attributes", .obj [])]), ("T2", .obj [("attributes", .obj [])])]
  [("T1", .arr []),
   ("T2", .arr [.arr [.num 4, .num 5, .str "8", .str "T2"]])]

/-- A compact pack with an empty T1 bucket and one T2 entry with id "9". -/
def packC6 : Json := mkCompactPack
  [("T1", .obj [("attributes", .obj [])]), ("T2", .obj [("attributes", .obj [])])]
  [("T1", .arr []),
   ("T2", .arr [.arr [.num 0, .num 1, .str "9", .str "T2"]])]

/-- A T1 entry with the fresh id "5". -/
def entryC6 : Json := .obj [("py/object", .str "T1"),
  ("py/state", .obj [("_span", .obj [("begin", .num 0), ("end", .num 1)]),
                     ("_tid", .str "5")])]

/-- packC6 after adding entryC6. -/
def packC6Mid : Json := mkCompactPack
  [("T1", .obj [("attributes", .obj [])]), ("T2", .obj [("attributes", .obj [])])]
  [("T1", .arr [.arr [.num 0, .num 1, .str "5", .str "T1"]]),
   ("T2", .arr [.arr [.num 0, .num 1, .str "9", .str "T2"]])]

/-- What delete_entry_from_doc actually leaves of packC6Mid: the unrelated
T2 entry with id "9" has been deleted too. -/
def packC6After : Json := mkCompactPack
  [("T1", .obj [("attributes", .obj [])]), ("T2", .obj [("attributes", .obj [])])]
  [("T1", .arr []), ("T2", .arr [])]

/-- An ontology with one annotation type Note. -/
def ontoNote : Json := .obj [("definitions", .arr [
  .obj [("entry_name", .str "Note"), ("parent_entry", .str ANNOT_ROOT)]])]

/-- The literal C8 schema: Note with parent_entry null, alongside the
Annotation root definition. -/
def ontoNoteNull : Json := .obj [("definitions", .arr [
  .obj [("entry_name", .str "Note"), ("parent_entry", .null)],
  .obj [("entry_name", .str ANNOT_ROOT)]])]

/-- A compact pack of version 0.0.2 with empty entries. -/
def packEmpty : Json := mkCompactPack [] []

/-- A Note-typed entry with span 0 to 5 and tid 1. -/
def entryNote : Json := .obj [("py/object", .str "Note"),
  ("py/state", .obj [("_span", .obj [("begin", .num 0), ("end", .num 5)]),
                     ("_tid", .num 1)])]

/-- A compact pack that already holds the Note entry as a positional array. -/
def packC2 : Json := mkCompactPack
  [("Note", .obj [("attributes", .obj [])])]
  [("Note", .arr [.arr [.num 0, .num 5, .num 1, .str "Note"]])]

/-- The empty ontology. -/
def ontoEmpty : Json := .obj []

/-- A legacy pack state parameterized by version: the three legacy entry
lists and a _meta record, but no meta key and no _data_store. -/
def packVer (v : String) : Json := .obj [("py/state", .obj [
  ("_text", .str ""), ("pack_version", .str v),
  ("annotations", .arr []), ("links", .arr []), ("groups", .arr []),
  ("_meta", .obj [("py/state", .obj [])])])]

/-- The decode result of an empty legacy pack. -/
def decodedEmpty : Json := .obj [
  ("text", .str ""), ("annotations", .arr []), ("links", .arr []),
  ("groups", .arr []), ("attributes", .obj [])]

/-- A legacy pack with neither a meta nor a _meta key. -/
def packNoMeta : Json := .obj [("py/state", .obj [
  ("_text", .str ""), ("pack_version", .str "0.0.1"),
  ("annotations", .arr []), ("links", .arr []), ("groups", .arr [])])]

/-- A legacy pack state with global attributes g under the given key
("meta" or "_meta"). -/
def packWithGlobal (key : String) (g : Json) : Json := .obj [("py/state", .obj [
  ("_text", .str ""), ("pack_version", .str "0.0.1"),
  ("annotations", .arr []), ("links", .arr []), ("groups", .arr []),
  (key, .obj [("py/state", g)])])]

/-- The decode result of an empty legacy pack with global attributes g. -/
def decodedWithGlobal (g : Json) : Json := .obj [
  ("text", .str ""), ("annotations", .arr []), ("links", .arr []),
  ("groups", .arr []), ("attributes", g)]

/-- A schema whose parent chain is a two-cycle: A to B to A. -/
def ontoCyc : Json := .obj [("definitions", .arr [
  .obj [("entry_name", .str "A"), ("parent_entry", .str "B")],
  .obj [("entry_name", .str "B"), ("parent_entry", .str "A")]])]

/-- The _entries mapping OntoDefinitions builds from ontoCyc. -/
def ontoCycMap : OntoMap := [
  (.str "A", .obj [("entry_name", .str "A"), ("parent_entry", .str "B")]),
  (.str "B", .obj [("entry_name", .str "B"), ("parent_entry", .str "A")])]

/-- A schema whose parent chain refers to a missing definition Y. -/
def ontoMissing : Json := .obj [("definitions", .arr [
  .obj [("entry_name", .str "X"), ("parent_entry", .str "Y")]])]

/-- The _entries mapping OntoDefinitions builds from ontoMissing. -/
def ontoMissingMap : OntoMap := [
  (.str "X", .obj [("entry_name", .str "X"), ("parent_entry", .str "Y")])]

/-- A schema that gives the Link root itself a parent_entry pointing at the
Annotation root. -/
def ontoRootOverride : Json := .obj [("definitions", .arr [
  .obj [("entry_name", .str LINK_ROOT), ("parent_entry", .str ANNOT_ROOT)]])]

/-- The _entries mapping OntoDefinitions builds from ontoRootOverride. -/
def ontoRootOverrideMap : OntoMap := [
  (.str LINK_ROOT, .obj [("entry_name", .str LINK_ROOT),
                         ("parent_entry", .str ANNOT_ROOT)])]

/-- An ontology with an annotation type T1 and a group type G. -/
def ontoC10 : Json := .obj [("definitions", .arr [
  .obj [("entry_name", .str "T1"), ("parent_entry", .str ANNOT_ROOT)],
  .obj [("entry_name", .str "G"), ("parent_entry", .str GROUP_ROOT)]])]

/-- A legacy pack with one T1 annotation with tid 1. -/
def packC10 : Json := .obj [("py/state", .obj [
  ("_text", .str ""), ("pack_version", .str "0.0.1"),
  ("annotations", .arr [.obj [("py/object", .str "T1"),
     ("py/state", .obj [("_span", .obj [("begin", .num 0), ("end", .num 1)]),
                        ("_tid", .num 1)])]]),
  ("links", .arr []), ("groups", .arr []),
  ("_meta", .obj [("py/state", .obj [])])])]

/-- A G-typed (group) entry: legacy add silently drops it. -/
def entryGroupC10 : Json := .obj [("py/object", .str "G"),
  ("py/state", .obj [("_tid", .num 7),
                     ("_members", .obj [("py/set", .arr [])])])]

/-- A T1-typed entry whose tid 99 matches nothing in packC10. -/
def entryNoMatchC10 : Json := .obj [("py/object", .str "T1"),
  ("py/state", .obj [("_span", .obj [("begin", .num 2), ("end", .num 3)]),
                     ("_tid", .num 99)])]

/-- What the claim says deleting id "7" from packC1 should leave: only the
last occurrence (the first T2 entry) removed, the T1 bucket untouched. -/
def packC1Claimed : Json := mkCompactPack
  [("T1", .obj [("attributes", .obj [])]), ("T2", .obj [("attributes", .obj [])])]
  [("T1", .arr [.arr [.num 0, .num 1, .str "7", .str "T1"]]),
   ("T2", .arr [.arr [.num 4, .num 5, .str "8", .str "T2"]])]

/-- packEmpty after adding entryNote under the null-parent schema: the Note
bucket holds one empty positional array. -/
def packC8NullMid : Json := mkCompactPack
  [("Note", .obj [("attributes", .obj [])])]
  [("Note", .arr [.arr []])]

/-- The single annotation the C8 scenario decodes to. -/
def annC8 : Json := .obj [("span", .obj [("begin", .num 0), ("end", .num 5)]),
  ("id", .str "1"), ("legendId", .str "Note"), ("attributes", .obj [])]

/-- The full decode result of the C8 scenario. -/
def decodedC8 : Json := .obj [("text", .str ""), ("annotations", .arr [annC8]),
  ("links", .arr []), ("groups", .arr []), ("attributes", .obj [])]

/-! Definitions for the slot-registry claim. -/

/-- The slot registry created for a fresh entry type: the i-th enumerated
attribute name maps to slot base + i (base is 4 in the source). -/
def mkSlotMap (base : Nat) : List String → List (String × Json)
  | [] => []
  | s :: rest => (s, .num base) :: mkSlotMap (base + 1) rest

/-- The positional reads the decoder performs through a slot registry. -/
def slotReads (filled : List Json) (base : Nat) :
    List String → List (String × Json)
  | [] => []
  | s :: rest => (s, filled.getD base .null) :: slotReads filled (base + 1) rest

/-- A tagged entry of type T with state S. -/
def c7entry (T : String) (S : List (String × Json)) : Json :=
  .obj [("py/object", .str T), ("py/state", .obj S)]

/-- The positional array the compact add builds for an annotation entry of
type T with state S: the four positional columns followed by one slot per
enumerated attribute name, holding the state value of that name (null when
the state does not provide it). -/
def c7filled (S : List (String × Json)) (b e tid : Json) (T : String)
    (strs : List String) : List Json :=
  [b, e, tid, .str T] ++ strs.map (fun s => (lookupF S s).getD .null)

/-- The document after a compact add of a fresh entry type T: the fields
registry gained the slot map for T and the T bucket holds the positional
array. -/
def c7after (F : List (String × Json)) (T : String) (strs : List String)
    (filled : List Json) : Json :=
  mkCompactPack
    (upsertF F T (.obj [("attributes", .obj (mkSlotMap 4 strs))]))
    [(T, .arr [.arr filled])]

/-- The decode of c7after: one annotation whose attributes are the slot
reads of the positional array. -/
def c7decoded (filled : List Json) (strs : List String) : Json :=
  .obj [("text", .str ""),
        ("annotations", .arr [.obj [
           ("span", .obj [("begin", filled.getD 0 .null),
                          ("end", filled.getD 1 .null)]),
           ("id", .str (pyStr (filled.getD 2 .null))),
           ("legendId", filled.getD 3 .null),
           ("attributes", .obj (slotReads filled 4 strs))]]),
        ("links", .arr []), ("groups", .arr []), ("attributes", .obj [])]

/-- Witness ontology for the slot-registry claim: type Tk with attributes
alpha and beta. -/
def ontoC7W : Json := .obj [("definitions", .arr [
  .obj [("entry_name", .str "Tk"), ("parent_entry", .str ANNOT_ROOT),
        ("attributes", .arr [.obj [("name", .str "alpha")],
                             .obj [("name", .str "beta")]])]])]

/-- The _entries mapping OntoDefinitions builds from ontoC7W. -/
def ontoC7WMap : OntoMap := [
  (.str "Tk", .obj [("entry_name", .str "Tk"), ("parent_entry", .str ANNOT_ROOT),
        ("attributes", .arr [.obj [("name", .str "alpha")],
                             .obj [("name", .str "beta")]])])]

/-- Witness state for the slot-registry claim. -/
def stateC7W : List (String × Json) :=
  [("_span", .obj [("begin", .num 0), ("end", .num 2)]),
   ("_tid", .num 3), ("alpha", .num 7)]

end Stave

namespace Stave

/-! Claim theorems. -/

theorem isParentMatchF_cycAB (m : Json) (hA : jeqScalar (.str "A") m = false)
    (hB : jeqScalar (.str "B") m = false) :
    ∀ n, isParentMatchF ontoCycMap m n (.str "A") = .error .diverge ∧
         isParentMatchF ontoCycMap m n (.str "B") = .error .diverge := by
  intro n
  induction n with
  | zero => exact ⟨rfl, rfl⟩
  | succ k ih =>
    refine ⟨?_, ?_⟩
    · simp only [isParentMatchF]
      rw [if_neg (by simp [hA]),
        show rawParentOf ontoCycMap (.str "A") = .ok (.str "B") from rfl]
      simp only [pthen_ok]
      rw [if_pos (show truthy (.str "B") = true from rfl)]
      exact ih.2
    · simp only [isParentMatchF]
      rw [if_neg (by simp [hB]),
        show rawParentOf ontoCycMap (.str "B") = .ok (.str "A") from rfl]
      simp only [pthen_ok]
      rw [if_pos (show truthy (.str "A") = true from rfl)]
      exact ih.1

/-- C5: get_entry_type on a schema with the cyclic parent chain A to B to A
never terminates, at any recursion budget: the source recurses without a
cycle guard, so it does not degrade to unknown.  On a chain that merely
refers to a missing definition it does terminate with unknown. -/
theorem C5_classify_cycle_diverges :
    mkOnto ontoCyc = .ok ontoCycMap ∧
    (∀ fuel, getEntryTypeF ontoCycMap fuel (.str "A") = .error .diverge) ∧
    mkOnto ontoMissing = .ok ontoMissingMap ∧
    getEntryTypeF ontoMissingMap 10 (.str "X") = .ok "unknown" := by
  refine ⟨rfl, ?_, rfl, rfl⟩
  intro fuel
  unfold getEntryTypeF
  rw [(isParentMatchF_cycAB (.str ANNOT_ROOT) rfl rfl fuel).1]
  rfl

/-- C1: on the compact pack whose id "7" occurs in two annotation buckets,
delete removes BOTH occurrences instead of only the last one, because
delete_index is never reset between buckets; the result differs from the
single-removal outcome the claim describes. -/
theorem C1_delete_duplicate_ids :
    deleteEntryFromDocTreeF 20 packC1 ontoT12 "7" "annotation" = .ok packC1After ∧
    packC1After ≠ packC1Claimed :=
  ⟨rfl, by decide⟩

/-- C2: on a compact pack, edit_entry_in_doc subscripts the positional
entry array with the string key py/state, which raises TypeError for every
nonempty bucket, so the entry is never replaced. -/
theorem C2_edit_compact_type_error :
    editEntryInDocTreeF 20 packC2 ontoNote entryNote =
      .error (.typeError "not subscriptable by str") ∧
    editEntryInDocF 20 packC2 ontoNote entryNote =
      .error (.typeError "not subscriptable by str") :=
  ⟨rfl, rfl⟩

/-- C3: the version dispatch shared by the decoder and the mutators reads
pack_version with default 0.0.0, is legacy exactly below 0.0.2 under
semantic-version ordering (0.0.10 is compact although the string "0.0.10"
sorts below "0.0.2"), and transform_pack takes the corresponding branch. -/
theorem C3_version_dispatch :
    (∀ st : Json, pyGet st "pack_version" = .ok none →
       packStateIsLegacy st = .ok true) ∧
    packStateIsLegacy (.obj [("pack_version", .str "0.0.1")]) = .ok true ∧
    packStateIsLegacy (.obj [("pack_version", .str "0.0.2")]) = .ok false ∧
    packStateIsLegacy (.obj [("pack_version", .str "0.0.10")]) = .ok false ∧
    strLt "0.0.10" "0.0.2" = true ∧
    transformPackF 20 (packVer "0.0.1") ontoEmpty = .ok decodedEmpty ∧
    transformPackF 20 (packVer "0.0.2") ontoEmpty = .error (.keyError "_data_store") := by
  refine ⟨?_, rfl, rfl, rfl, rfl, rfl, rfl⟩
  intro st h
  unfold packStateIsLegacy
  rw [h]
  rfl

/-- C3 witness: the dispatch defaults to the legacy branch on a state with
no pack_version key. -/
theorem C3_version_dispatch_witness :
    packStateIsLegacy (Json.obj []) = .ok true :=
  C3_version_dispatch.1 (Json.obj []) rfl

/-- C4 counterexample: on a pack with neither a meta nor a _meta key,
transform_pack raises KeyError instead of yielding an empty mapping. -/
theorem C4_meta_default_counterexample :
    transformPackF 20 packNoMeta ontoEmpty = .error (.keyError "_meta") :=
  rfl

/-- C4 (amended): decode takes the global attributes from meta when that
key is present, else from _meta; when both are absent it fails with
KeyError on _meta rather than defaulting to an empty mapping. -/
theorem C4_meta_fallback :
    (∀ g : Json, transformPackF 20 (packWithGlobal "meta" g) ontoEmpty =
       .ok (decodedWithGlobal g)) ∧
    (∀ g : Json, transformPackF 20 (packWithGlobal "_meta" g) ontoEmpty =
       .ok (decodedWithGlobal g)) ∧
    transformPackF 20 packNoMeta ontoEmpty = .error (.keyError "_meta") :=
  ⟨fun _ => rfl, fun _ => rfl, rfl⟩

/-- C6: adding the fresh id "5" to the T1 bucket of packC6 and then
deleting it does not restore the pack: the stale delete_index also deletes
the untouched T2 entry with id "9". -/
theorem C6_add_delete_not_restore :
    addEntryToDocTreeF 20 packC6 ontoT12 entryC6 = .ok packC6Mid ∧
    deleteEntryFromDocTreeF 20 packC6Mid ontoT12 "5" "annotation" = .ok packC6After ∧
    packC6After ≠ packC6 :=
  ⟨rfl, rfl, by decide⟩

/-- C8 counterexample: under the literal schema of the claim, where Note
has parent_entry null, the added Note entry is classified unknown: add
stores an empty positional array and decode yields zero annotations, not
one. -/
theorem C8_null_parent_counterexample :
    addEntryToDocTreeF 20 packEmpty ontoNoteNull entryNote = .ok packC8NullMid ∧
    transformPackF 20 packC8NullMid ontoNoteNull = .ok decodedEmpty :=
  ⟨rfl, rfl⟩

/-- C8 (amended): with Note declared as a child of the Annotation root,
adding a Note entry with span 0 to 5 and tid 1 to the empty 0.0.2 pack and
decoding yields exactly one annotation with id "1", legendId Note and
empty attributes. -/
theorem C8_scenario_decodes :
    addEntryToDocTreeF 20 packEmpty ontoNote entryNote = .ok packC2 ∧
    transformPackF 20 packC2 ontoNote = .ok decodedC8 :=
  ⟨rfl, rfl⟩

/-- C9 counterexample: a schema may give the Link root itself a
parent_entry reaching the Annotation root, and then classification of the
Link root returns annotation, not link. -/
theorem C9_root_override_counterexample :
    mkOnto ontoRootOverride = .ok ontoRootOverrideMap ∧
    getEntryTypeF ontoRootOverrideMap 10 (.str LINK_ROOT) = .ok "annotation" ∧
    "annotation" ≠ "link" :=
  ⟨rfl, rfl, by decide⟩

theorem isParentMatchF_self_str (onto : OntoMap) (s : String) (fuel : Nat) :
    isParentMatchF onto (.str s) (fuel + 1) (.str s) = .ok true := by
  simp only [isParentMatchF]
  rw [if_pos]
  simp [jeqScalar]

theorem isParentMatchF_noparent (onto : OntoMap) (m n : Json)
    (hne : jeqScalar n m = false) (p : Json) (hp : rawParentOf onto n = .ok p)
    (ht : truthy p = false) (fuel : Nat) :
    isParentMatchF onto m (fuel + 1) n = .ok false := by
  simp only [isParentMatchF]
  rw [if_neg (by simp [hne]), hp]
  simp only [pthen_ok]
  rw [if_neg]
  simp [ht]

/-- C9 (amended): on any ontology mapping in which none of the three root
type names carries a truthy parent_entry (in particular the one built from
the empty schema), classification of each exact root name returns its
kind, because the name-equality check precedes the definition lookup. -/
theorem C9_roots_classify (onto : OntoMap)
    (h : ∀ r ∈ [ANNOT_ROOT, LINK_ROOT, GROUP_ROOT],
        ∃ p, rawParentOf onto (.str r) = .ok p ∧ truthy p = false)
    (fuel : Nat) :
    getEntryTypeF onto (fuel + 1) (.str ANNOT_ROOT) = .ok "annotation" ∧
    getEntryTypeF onto (fuel + 1) (.str LINK_ROOT) = .ok "link" ∧
    getEntryTypeF onto (fuel + 1) (.str GROUP_ROOT) = .ok "group" := by
  obtain ⟨pL, hpL, htL⟩ := h LINK_ROOT (by simp)
  obtain ⟨pG, hpG, htG⟩ := h GROUP_ROOT (by simp)
  refine ⟨?_, ?_, ?_⟩
  · unfold getEntryTypeF
    rw [isParentMatchF_self_str]
    rfl
  · unfold getEntryTypeF
    rw [isParentMatchF_noparent onto (.str ANNOT_ROOT) (.str LINK_ROOT) rfl pL hpL htL]
    simp only [pthen_ok]
    rw [if_neg (by simp)]
    rw [isParentMatchF_self_str]
    rfl
  · unfold getEntryTypeF
    rw [isParentMatchF_noparent onto (.str ANNOT_ROOT) (.str GROUP_ROOT) rfl pG hpG htG]
    simp only [pthen_ok]
    rw [if_neg (by simp)]
    rw [isParentMatchF_noparent onto (.str LINK_ROOT) (.str GROUP_ROOT) rfl pG hpG htG]
    simp only [pthen_ok]
    rw [if_neg (by simp)]
    rw [isParentMatchF_self_str]
    rfl

/-- C9 witness: on the empty ontology all three roots classify to their
own kinds. -/
theorem C9_roots_classify_witness :
    getEntryTypeF [] 10 (.str ANNOT_ROOT) = .ok "annotation" ∧
    getEntryTypeF [] 10 (.str LINK_ROOT) = .ok "link" ∧
    getEntryTypeF [] 10 (.str GROUP_ROOT) = .ok "group" :=
  C9_roots_classify [] (fun _ _ => ⟨Json.null, rfl, rfl⟩) 9

/-- C10: every mutator re-serializes the whole parsed tree on success (the
persisted text is dumps of the mutated tree), and runs to completion with
an unchanged tree even when the mutation is a no-op, namely a legacy Group
add, an edit whose id matches nothing, and a delete whose id matches
nothing: the stored pack text is rewritten on every such call. -/
theorem C10_mutators_rewrite :
    (∀ (fuel : Nat) (pack onto entry : Json),
       addEntryToDocF fuel pack onto entry =
         (addEntryToDocTreeF fuel pack onto entry).map dumps) ∧
    (∀ (fuel : Nat) (pack onto entry : Json),
       editEntryInDocF fuel pack onto entry =
         (editEntryInDocTreeF fuel pack onto entry).map dumps) ∧
    (∀ (fuel : Nat) (pack onto : Json) (tid pt : String),
       deleteEntryFromDocF fuel pack onto tid pt =
         (deleteEntryFromDocTreeF fuel pack onto tid pt).map dumps) ∧
    addEntryToDocTreeF 20 packC10 ontoC10 entryGroupC10 = .ok packC10 ∧
    addEntryToDocF 20 packC10 ontoC10 entryGroupC10 = .ok (dumps packC10) ∧
    editEntryInDocTreeF 20 packC10 ontoC10 entryNoMatchC10 = .ok packC10 ∧
    editEntryInDocF 20 packC10 ontoC10 entryNoMatchC10 = .ok (dumps packC10) ∧
    deleteEntryFromDocTreeF 20 packC10 ontoC10 "99" "annotation" = .ok packC10 ∧
    deleteEntryFromDocF 20 packC10 ontoC10 "99" "annotation" = .ok (dumps packC10) :=
  ⟨fun _ _ _ _ => rfl, fun _ _ _ _ => rfl, fun _ _ _ _ _ => rfl,
   rfl, rfl, rfl, rfl, rfl, rfl⟩

/-! Helper lemmas for the slot-registry claim. -/

theorem lookupF_upsertF_self (F : List (String × Json)) (k : String) (v : Json) :
    lookupF (upsertF F k v) k = some v := by
  induction F with
  | nil => simp [upsertF, lookupF]
  | cons kv rest ih =>
    by_cases h : kv.1 = k
    · simp [upsertF, h, lookupF]
    · simp [upsertF, h, lookupF, ih]

theorem lookupF_eq_none_of_not_mem (F : List (String × Json)) (k : String)
    (h : k ∉ F.map Prod.fst) : lookupF F k = none := by
  induction F with
  | nil => rfl
  | cons kv rest ih =>
    obtain ⟨k1, v1⟩ := kv
    simp only [List.map_cons, List.mem_cons, not_or] at h
    rw [lookupF_cons, if_neg (fun hh => h.1 hh.symm), ih h.2]

theorem jGetE_obj (fs : List (String × Json)) (key : String) :
    jGetE (.obj fs) key =
      match lookupF fs key with
      | some v => .ok v
      | none => .error (.keyError key) := rfl

theorem mkSlotObj_strs (base : Nat) (strs : List String) :
    mkSlotObj base (strs.map .str) = .ok (mkSlotMap base strs) := by
  induction strs generalizing base with
  | nil => rfl
  | cons s rest ih =>
    simp only [List.map_cons, mkSlotObj, mkSlotMap, ih (base + 1), pthen_ok]

theorem mkSlotMap_length (base : Nat) (strs : List String) :
    (mkSlotMap base strs).length = strs.length := by
  induction strs generalizing base with
  | nil => rfl
  | cons s rest ih => simp [mkSlotMap, ih]

theorem lookupF_mkSlotMap_of_not_mem (strs : List String) (base : Nat)
    (k : String) (h : k ∉ strs) : lookupF (mkSlotMap base strs) k = none := by
  induction strs generalizing base with
  | nil => rfl
  | cons s rest ih =>
    simp only [List.mem_cons, not_or] at h
    rw [mkSlotMap, lookupF_cons, if_neg (fun hh => h.1 hh.symm), ih _ h.2]

theorem lookupF_mkSlotMap_inv (strs : List String) (base : Nat) (k : String)
    (v : Json) (h : lookupF (mkSlotMap base strs) k = some v) :
    ∃ i, ∃ hi : i < strs.length,
      strs.get ⟨i, hi⟩ = k ∧ v = .num ((base + i : Nat)) := by
  induction strs generalizing base with
  | nil => cases h
  | cons s rest ih =>
    rw [mkSlotMap, lookupF_cons] at h
    by_cases hs : s = k
    · rw [if_pos hs] at h
      refine ⟨0, by simp, hs, ?_⟩
      cases h
      rfl
    · rw [if_neg hs] at h
      obtain ⟨i, hi, hget, hv⟩ := ih (base + 1) h
      refine ⟨i + 1, by simpa using hi, by simpa using hget, ?_⟩
      rw [hv]
      congr 1
      omega

theorem mkSlotMap_getElem (strs : List String) (base : Nat) (i : Nat)
    (hi : i < strs.length) :
    (mkSlotMap base strs)[i]? = some (strs.get ⟨i, hi⟩, .num (base + i)) := by
  induction strs generalizing base i with
  | nil => cases hi
  | cons s rest ih =>
    cases i with
    | zero => simp [mkSlotMap]
    | succ j =>
      have hj : j < rest.length := by simpa using hi
      simp only [mkSlotMap, List.getElem?_cons_succ]
      rw [ih (base + 1) j hj,
        show ((base + 1 : Nat) : Int) + (j : Int) =
          (base : Int) + ((j + 1 : Nat) : Int) from by push_cast; ring]
      rfl

theorem pySetIdx_nat (xs : List Json) (k : Nat) (hk : k < xs.length)
    (v : Json) : pySetIdx xs (.num k) v = .ok (xs.set k v) := by
  have h0 : ¬((k : Int) < 0) := by omega
  simp only [pySetIdx, h0, if_false]
  rw [if_pos ⟨by omega, by omega⟩]
  rfl

theorem pySubscript_nat (xs : List Json) (k : Nat) (hk : k < xs.length) :
    pySubscript (.arr xs) (.num k) = .ok (xs.getD k .null) := by
  have h0 : ¬((k : Int) < 0) := by omega
  simp only [pySubscript, h0, if_false]
  rw [dif_pos ⟨by omega, by omega⟩]
  congr 1
  rw [List.getD_eq_getElem?_getD, List.getElem?_eq_getElem hk]
  rfl

theorem lookupF_mkSlotMap_isSome (strs : List String) (base : Nat) (k : String)
    (hk : k ∈ strs) : (lookupF (mkSlotMap base strs) k).isSome := by
  induction strs generalizing base with
  | nil => cases hk
  | cons s rest ih =>
    rw [mkSlotMap, lookupF_cons]
    by_cases hs : s = k
    · rw [if_pos hs]; rfl
    · rw [if_neg hs]
      refine ih _ ?_
      rcases List.mem_cons.mp hk with h | h
      · exact absurd h.symm hs
      · exact h

/-- The attribute-filling loop writes each state value into the slot of its
name and touches nothing else.  Characterized positionally. -/
theorem fillSlots_char (strs : List String) (hnd : strs.Nodup) :
    ∀ (S : List (String × Json)), (S.map Prod.fst).Nodup →
    ∀ (acc : List Json), acc.length = 4 + strs.length →
    ∃ res, fillSlots (mkSlotMap 4 strs) S acc = .ok res ∧
      res.length = 4 + strs.length ∧
      (∀ p, p < 4 → res[p]? = acc[p]?) ∧
      (∀ i, (hi : i < strs.length) →
        res[4 + i]? =
          match lookupF S (strs.get ⟨i, hi⟩) with
          | some v => some v
          | none => acc[4 + i]?) := by
  intro S
  induction S with
  | nil =>
    intro _ acc hlen
    exact ⟨acc, rfl, hlen, fun _ _ => rfl, fun _ _ => rfl⟩
  | cons kv rest ih =>
    intro hS acc hlen
    obtain ⟨k, v⟩ := kv
    simp only [List.map_cons, List.nodup_cons] at hS
    obtain ⟨hkrest, hrest⟩ := hS
    cases hk : lookupF (mkSlotMap 4 strs) k with
    | none =>
      obtain ⟨res, hres, hlen2, hlow, hread⟩ := ih hrest acc hlen
      have hknotin : k ∉ strs := by
        intro hmem
        have hs := lookupF_mkSlotMap_isSome strs 4 k hmem
        rw [hk] at hs
        cases hs
      refine ⟨res, ?_, hlen2, hlow, ?_⟩
      · simp only [fillSlots, hk]
        exact hres
      · intro i hi
        have hne : ¬(k = strs.get ⟨i, hi⟩) :=
          fun h => hknotin (h ▸ List.get_mem _ _ _)
        rw [lookupF_cons, if_neg hne]
        exact hread i hi
    | some idx =>
      obtain ⟨j, hj, hgetj, hidx⟩ := lookupF_mkSlotMap_inv strs 4 k idx hk
      have hset : pySetIdx acc (.num ((4 + j : Nat))) v = .ok (acc.set (4 + j) v) :=
        pySetIdx_nat acc (4 + j) (by omega) v
      obtain ⟨res, hres, hlen2, hlow, hread⟩ :=
        ih hrest (acc.set (4 + j) v) (by rw [List.length_set]; exact hlen)
      refine ⟨res, ?_, hlen2, ?_, ?_⟩
      · simp only [fillSlots, hk, hidx, hset, pthen_ok]
        exact hres
      · intro p hp
        rw [hlow p hp, List.getElem?_set_ne (by omega)]
      · intro i hi
        rw [lookupF_cons]
        by_cases heq : k = strs.get ⟨i, hi⟩
        · rw [if_pos heq]
          have hij : i = j := by
            have hgg : strs.get ⟨i, hi⟩ = strs.get ⟨j, hj⟩ := by
              rw [← heq, hgetj]
            exact congrArg Fin.val (hnd.get_inj_iff.mp hgg)
          subst hij
          rw [hread i hi,
            lookupF_eq_none_of_not_mem rest (strs.get ⟨i, hi⟩)
              (by rw [← heq]; exact hkrest),
            List.getElem?_set_self (by omega)]
        · rw [if_neg heq, hread i hi]
          have hij : i ≠ j := by
            intro hcontra
            subst hcontra
            exact heq (by rw [hgetj])
          cases hrlk : lookupF rest (strs.get ⟨i, hi⟩) with
          | some w => rfl
          | none =>
            show (acc.set (4 + j) v)[4 + i]? = acc[4 + i]?
            rw [List.getElem?_set_ne (by omega)]

theorem c7filled_getElem_attr (S : List (String × Json)) (b e tid : Json)
    (T : String) (strs : List String) (i : Nat) (hi : i < strs.length) :
    (c7filled S b e tid T strs)[4 + i]? =
      some ((lookupF S (strs.get ⟨i, hi⟩)).getD .null) := by
  simp only [c7filled]
  rw [List.getElem?_append_right (by simp)]
  simp only [List.length_cons, List.length_nil]
  rw [show 4 + i - 4 = i from by omega, List.getElem?_map,
    List.getElem?_eq_getElem hi]
  rfl

/-- The fill loop of add, on the fresh-type padded array, produces exactly
the explicit c7filled array. -/
theorem fillSlots_c7 (strs : List String) (hnd : strs.Nodup)
    (S : List (String × Json)) (hS : (S.map Prod.fst).Nodup)
    (b e tid : Json) (T : String) :
    fillSlots (mkSlotMap 4 strs) S
      ([b, e, tid, .str T] ++
        List.replicate (mkSlotMap 4 strs).length Json.null) =
      .ok (c7filled S b e tid T strs) := by
  have hlen : ([b, e, tid, .str T] ++
      List.replicate (mkSlotMap 4 strs).length Json.null).length =
      4 + strs.length := by
    simp only [List.length_append, List.length_cons, List.length_nil,
      List.length_replicate, mkSlotMap_length]
  obtain ⟨res, hres, hlen2, hlow, hread⟩ := fillSlots_char strs hnd S hS _ hlen
  rw [hres]
  congr 1
  apply List.ext_getElem?
  intro n
  by_cases hn4 : n < 4
  · rw [hlow n hn4]
    simp only [c7filled, List.cons_append, List.nil_append]
    interval_cases n <;>
      simp only [List.getElem?_cons_zero, List.getElem?_cons_succ]
  · by_cases hn : n < 4 + strs.length
    · obtain ⟨i, rfl⟩ : ∃ i, n = 4 + i := ⟨n - 4, by omega⟩
      have hi : i < strs.length := by omega
      rw [hread i hi, c7filled_getElem_attr S b e tid T strs i hi]
      cases hS2 : lookupF S (strs.get ⟨i, hi⟩) with
      | some v => rfl
      | none =>
        show ([b, e, tid, Json.str T] ++
          List.replicate (mkSlotMap 4 strs).length Json.null)[4 + i]? =
          some Json.null
        rw [List.getElem?_append_right (by simp)]
        simp only [List.length_cons, List.length_nil]
        rw [show 4 + i - 4 = i from by omega]
        rw [List.getElem?_replicate, if_pos (by rw [mkSlotMap_length]; omega)]
    · rw [List.getElem?_eq_none (by omega),
        List.getElem?_eq_none (by simp [c7filled]; omega)]

/-- The decode attribute comprehension through a fresh slot registry is the
positional read-back. -/
theorem decodeAttrsList_mkSlotMap (filled : List Json) :
    ∀ (strs2 : List String) (base : Nat), base + strs2.length ≤ filled.length →
    decodeAttrsList (mkSlotMap base strs2) (.arr filled) =
      .ok (slotReads filled base strs2) := by
  intro strs2
  induction strs2 with
  | nil => intro base h; rfl
  | cons s rest ih =>
    intro base h
    simp only [List.length_cons] at h
    simp only [mkSlotMap, decodeAttrsList, slotReads]
    rw [pySubscript_nat filled base (by omega)]
    simp only [pthen_ok]
    rw [ih (base + 1) (by omega)]
    simp only [pthen_ok]

/-- Reading the decoded attributes object back by name yields the slot of
that name. -/
theorem lookupF_slotReads (filled : List Json) :
    ∀ (strs : List String), strs.Nodup →
    ∀ (base : Nat) (i : Nat) (hi : i < strs.length),
      lookupF (slotReads filled base strs) (strs.get ⟨i, hi⟩) =
        some (filled.getD (base + i) .null) := by
  intro strs
  induction strs with
  | nil => intro _ _ i hi; cases hi
  | cons s rest ih =>
    intro hnd base i hi
    obtain ⟨hs, hrest⟩ := List.nodup_cons.mp hnd
    cases i with
    | zero =>
      simp only [slotReads, lookupF_cons]
      rw [show (s :: rest).get ⟨0, hi⟩ = s from rfl, if_pos rfl]
      rfl
    | succ j =>
      have hj : j < rest.length := by simpa using hi
      simp only [slotReads, lookupF_cons]
      rw [show (s :: rest).get ⟨j + 1, hi⟩ = rest.get ⟨j, hj⟩ from rfl,
        if_neg (fun hh => hs (by rw [hh]; exact List.get_mem rest j hj)),
        show base + (j + 1) = (base + 1) + j from by omega]
      exact ih hrest (base + 1) j hj

theorem c7filled_length (S : List (String × Json)) (b e tid : Json)
    (T : String) (strs : List String) :
    (c7filled S b e tid T strs).length = 4 + strs.length := by
  simp only [c7filled, List.length_append, List.length_cons, List.length_nil,
    List.length_map]

/-- Evaluation of add_entry_to_doc on a compact pack whose fields registry
lacks the (annotation-classified) incoming type: a registry entry is
created from the enumerated attribute names and the filled positional
array is appended to a fresh bucket. -/
theorem c7_add_eval (ontoJ : Json) (ontoM : OntoMap)
    (hmk : mkOnto ontoJ = .ok ontoM) (fuel : Nat) (T : String)
    (hty : getEntryTypeF ontoM fuel (.str T) = .ok "annotation")
    (strs : List String) (hnd : strs.Nodup)
    (hnames : getAttributeNamesE ontoM (.str T) = .ok (strs.map .str))
    (F : List (String × Json)) (hF : lookupF F T = none)
    (S : List (String × Json)) (hS : (S.map Prod.fst).Nodup)
    (SP : List (String × Json)) (hsp : lookupF S "_span" = some (.obj SP))
    (b : Json) (hb : lookupF SP "begin" = some b)
    (e : Json) (he : lookupF SP "end" = some e)
    (tid : Json) (htid : lookupF S "_tid" = some tid) :
    addEntryToDocTreeF fuel (mkCompactPack F []) ontoJ (c7entry T S) =
      .ok (c7after F T strs (c7filled S b e tid T strs)) := by
  have hstate : jGetE (mkCompactPack F []) "py/state" = .ok (mkCompactState F []) := rfl
  have hleg : packStateIsLegacy (mkCompactState F []) = .ok false := rfl
  have hds : jGetE (mkCompactState F []) "_data_store" =
    .ok (.obj [("py/state", .obj [("fields", .obj F), ("entries", .obj [])])]) := rfl
  have hpyobj : jGetE (c7entry T S) "py/object" = .ok (.str T) := rfl
  have hpystate : jGetE (c7entry T S) "py/state" = .ok (.obj S) := rfl
  unfold addEntryToDocTreeF
  simp only [hmk, pthen_ok, pthen_error, hpyobj, hty, hstate, hleg,
    Bool.false_eq_true, if_false, hds, jGetE_obj, lookupF_cons, lookupF_nil,
    hF, hnames, mkSlotObj_strs, lookupF_upsertF_self, hpystate, hsp, hb,
    he, htid, fillSlots_c7 strs hnd S hS b e tid T, Option.getD_none,
    Option.getD_some, String.reduceEq, reduceIte]
  rfl

/-- Evaluation of transform_pack on the document produced by the fresh-type
add: a single annotation whose attributes are the positional reads through
the created registry. -/
theorem c7_decode_eval (ontoJ : Json) (ontoM : OntoMap)
    (hmk : mkOnto ontoJ = .ok ontoM) (fuel : Nat) (T : String)
    (hty : getEntryTypeF ontoM fuel (.str T) = .ok "annotation")
    (strs : List String) (F : List (String × Json)) (filled : List Json)
    (hlen : filled.length = 4 + strs.length) :
    transformPackF fuel (c7after F T strs filled) ontoJ =
      .ok (c7decoded filled strs) := by
  have hst : jGetE (c7after F T strs filled) "py/state" =
    .ok (mkCompactState (upsertF F T (.obj [("attributes", .obj (mkSlotMap 4 strs))]))
      [(T, .arr [.arr filled])]) := rfl
  have hleg2 : packStateIsLegacy (mkCompactState
      (upsertF F T (.obj [("attributes", .obj (mkSlotMap 4 strs))]))
      [(T, .arr [.arr filled])]) = .ok false := rfl
  have hds2 : jGetE (mkCompactState
      (upsertF F T (.obj [("attributes", .obj (mkSlotMap 4 strs))]))
      [(T, .arr [.arr filled])]) "_data_store" =
    .ok (.obj [("py/state", .obj [
      ("fields", .obj (upsertF F T (.obj [("attributes", .obj (mkSlotMap 4 strs))]))),
      ("entries", .obj [(T, .arr [.arr filled])])])]) := rfl
  have htext : jGetE (mkCompactState
      (upsertF F T (.obj [("attributes", .obj (mkSlotMap 4 strs))]))
      [(T, .arr [.arr filled])]) "_text" = .ok (.str "") := rfl
  have hhasmeta : jHasKey (mkCompactState
      (upsertF F T (.obj [("attributes", .obj (mkSlotMap 4 strs))]))
      [(T, .arr [.arr filled])]) "meta" = .ok false := rfl
  have hmeta2 : jGetE (mkCompactState
      (upsertF F T (.obj [("attributes", .obj (mkSlotMap 4 strs))]))
      [(T, .arr [.arr filled])]) "_meta" = .ok (.obj [("py/state", .obj [])]) := rfl
  unfold transformPackF
  simp only [hst, hmk, hleg2, hds2, htext, hhasmeta, hmeta2, pthen_ok, pthen_error,
    Bool.false_eq_true, if_false, jGetE_obj, lookupF_cons, lookupF_nil,
    compactEntriesF, compactEntryListF, compactAttrs, packTail, hty,
    lookupF_upsertF_self,
    decodeAttrsList_mkSlotMap filled strs 4 (by omega),
    (show pySubscript (.arr filled) (.num 0) = .ok (filled.getD 0 .null) from
      pySubscript_nat filled 0 (by omega)),
    (show pySubscript (.arr filled) (.num 1) = .ok (filled.getD 1 .null) from
      pySubscript_nat filled 1 (by omega)),
    (show pySubscript (.arr filled) (.num 2) = .ok (filled.getD 2 .null) from
      pySubscript_nat filled 2 (by omega)),
    (show pySubscript (.arr filled) (.num 3) = .ok (filled.getD 3 .null) from
      pySubscript_nat filled 3 (by omega)),
    List.nil_append, Option.getD_none, Option.getD_some,
    String.reduceEq, reduceIte, ne_eq, not_true, false_and, and_false]
  rfl

/-- C7: on a compact add of an annotation-classified entry type absent
from the fields structure, a registry entry is created mapping the i-th
enumerated attribute name to slot 4 + i (consecutive slots from the fixed
offset 4, in enumeration order), the positional array appended carries each
provided attribute value in the slot of its name, and a subsequent decode
recovers each provided attribute value under its name through that slot
map. -/
theorem C7_slot_registry (ontoJ : Json) (ontoM : OntoMap)
    (hmk : mkOnto ontoJ = .ok ontoM) (fuel : Nat) (T : String)
    (hty : getEntryTypeF ontoM fuel (.str T) = .ok "annotation")
    (strs : List String) (hnd : strs.Nodup)
    (hnames : getAttributeNamesE ontoM (.str T) = .ok (strs.map .str))
    (F : List (String × Json)) (hF : lookupF F T = none)
    (S : List (String × Json)) (hS : (S.map Prod.fst).Nodup)
    (SP : List (String × Json)) (hsp : lookupF S "_span" = some (.obj SP))
    (b : Json) (hb : lookupF SP "begin" = some b)
    (e : Json) (he : lookupF SP "end" = some e)
    (tid : Json) (htid : lookupF S "_tid" = some tid) :
    addEntryToDocTreeF fuel (mkCompactPack F []) ontoJ (c7entry T S) =
      .ok (c7after F T strs (c7filled S b e tid T strs)) ∧
    (∀ i, (hi : i < strs.length) →
      (mkSlotMap 4 strs)[i]? = some (strs.get ⟨i, hi⟩, .num (4 + i))) ∧
    transformPackF fuel (c7after F T strs (c7filled S b e tid T strs)) ontoJ =
      .ok (c7decoded (c7filled S b e tid T strs) strs) ∧
    (∀ name v, name ∈ strs → lookupF S name = some v →
      lookupF (slotReads (c7filled S b e tid T strs) 4 strs) name = some v) := by
  refine ⟨c7_add_eval ontoJ ontoM hmk fuel T hty strs hnd hnames F hF S hS SP
      hsp b hb e he tid htid,
    fun i hi => mkSlotMap_getElem strs 4 i hi,
    c7_decode_eval ontoJ ontoM hmk fuel T hty strs F _
      (c7filled_length S b e tid T strs), ?_⟩
  intro name v hmem hlk
  obtain ⟨⟨i, hi⟩, hget⟩ := List.get_of_mem hmem
  rw [← hget, lookupF_slotReads (c7filled S b e tid T strs) strs hnd 4 i hi,
    List.getD_eq_getElem?_getD, c7filled_getElem_attr S b e tid T strs i hi,
    Option.getD_some, hget, hlk]
  rfl

/-- C7 witness: with the two-attribute type Tk and a state providing alpha
equal to 7, the decoded attributes carry alpha equal to 7. -/
theorem C7_slot_registry_witness :
    lookupF (slotReads
      (c7filled stateC7W (.num 0) (.num 2) (.num 3) "Tk" ["alpha", "beta"]) 4
      ["alpha", "beta"]) "alpha" = some (.num 7) :=
  (C7_slot_registry ontoC7W ontoC7WMap rfl 10 "Tk" rfl ["alpha", "beta"]
    (by decide) rfl [] rfl stateC7W (by decide)
    [("begin", .num 0), ("end", .num 2)] rfl
    (.num 0) rfl (.num 2) rfl (.num 3) rfl).2.2.2 "alpha" (.num 7)
    (by decide) rfl

end Stave
